import Mathlib

/-!
Verification of the easegress fragment: the httpbackend load balancer
(`part_001`), the Eureka service-registry sync loop (`part_000`), and the
pipeline common configuration (`pipelines.go`), shallowly embedded in Lean.
Machine integers are modelled as `Nat`/`Int` with explicit wrap-around where
the Go code can overflow; Go panics and nil dereferences are modelled with
`Option`.
-/

namespace Easegress

/-- Reinterpret a natural number (a Go `uint64` value) as a signed `int64`,
modelling Go's `int(count)` conversion on a 64-bit platform. -/
def toInt64 (n : Nat) : Int :=
  (((n + 2 ^ 63) % 2 ^ 64 : Nat) : Int) - 2 ^ 63

/-- Truncate an integer to Go's `int16`, modelling `int16(instance.Port.Port)`. -/
def toInt16 (n : Int) : Int :=
  ((n + 2 ^ 15) % 2 ^ 16) - 2 ^ 15

/-! ## Load balancer (`httpbackend`, src/unnamed/part_001) -/

/-- `Server` from part_001: backend server with URL, tags and weight
(`Weight int`, validated to `[0,100]` by the `v` tag). -/
structure Server where
  URL : String
  Tags : List String
  Weight : Int
deriving DecidableEq, Repr

/-- `LoadBalance` config from part_001. -/
structure LoadBalance where
  Policy : String
  HeaderHashKey : String
deriving DecidableEq, Repr

/-- The `servers` struct from part_001: atomic counter, precomputed weight
sum, the participating server list and the load-balance config. -/
structure ServersVal where
  count : Nat
  weightsSum : Int
  servers : List Server
  lb : LoadBalance
deriving DecidableEq, Repr

/-- The policy name constants of part_001. -/
def policyRoundRobin : String := "roundRobin"

def policyRandom : String := "random"

def policyWeightedRandom : String := "weightedRandom"

def policyIPHash : String := "ipHash"

def policyHeaderHash : String := "headerHash"

/-- `LoadBalance.Validate` from part_001: an error (`some msg`) iff the policy
is `headerHash` with an empty `HeaderHashKey`; `none` models `nil`. -/
def LoadBalance.Validate (lb : LoadBalance) : Option String :=
  if lb.Policy = policyHeaderHash && lb.HeaderHashKey.length = 0 then
    some "headerHash needs to speficy headerHashKey"
  else
    none

/-- The declarative `oneof` check from the struct tag
`v:"required,oneof=roundRobin random weightedRandom ipHash headerHash"`
on `LoadBalance.Policy` in part_001. -/
def policyOneOf (p : String) : Bool :=
  p == policyRoundRobin || p == policyRandom || p == policyWeightedRandom ||
    p == policyIPHash || p == policyHeaderHash

/-- Full validation of a `LoadBalance` config: the declarative `oneof` tag
together with the `Validate` method. -/
def lbConfigValid (lb : LoadBalance) : Bool :=
  policyOneOf lb.Policy && (LoadBalance.Validate lb).isNone

/-- `common.StrInSlice` from the common package: membership of a string in a
slice. -/
def strInSlice (s : String) (l : List String) : Bool :=
  l.elem s

/-- The weight accumulation of `servers.prepare` from part_001:
`for _, server := range s.servers { s.weightsSum += server.Weight }`
starting from the zero value. -/
def listWeightSum (l : List Server) : Int :=
  l.foldl (fun acc srv => acc + srv.Weight) 0

/-- The `Spec` fields of httpbackend that `newServers` reads: the declared
servers, the tag filter and the load-balance config. -/
structure HTTPSpec where
  servers : List Server
  serversTags : List String
  loadBalance : LoadBalance
deriving DecidableEq, Repr

/-- `newServers` from part_001: when `ServersTags` is empty all spec servers
participate, otherwise exactly the spec servers one of whose tags occurs in
`ServersTags` (the inner loop with `break` is a first-match test); the
deferred `prepare` then accumulates `weightsSum` over the chosen list. -/
def newServers (spec : HTTPSpec) : ServersVal :=
  let chosen :=
    if spec.serversTags.length = 0 then
      spec.servers
    else
      spec.servers.filter fun srv =>
        spec.serversTags.any fun tag => strInSlice tag srv.Tags
  { count := 0
    weightsSum := listWeightSum chosen
    servers := chosen
    lb := spec.loadBalance }

/-- `servers.roundRobin` from part_001: `count := atomic.AddUint64(&s.count, 1)`
then `s.servers[int(count) % len(s.servers)]`. Returns the updated struct and
the selected server; `none` models the panic on an empty list or a negative
index. -/
def roundRobinGo (s : ServersVal) : ServersVal × Option Server :=
  let c := (s.count + 1) % 2 ^ 64
  let sel :=
    if s.servers.length = 0 then
      none
    else
      let idx := (toInt64 c).tmod (s.servers.length : Int)
      if 0 ≤ idx then s.servers.get? idx.toNat else none
  ({ s with count := c }, sel)

/-- Iterate `roundRobinGo` `n` times from state `s`, collecting the picks in
order. -/
def roundRobinSeq (s : ServersVal) : Nat → List (Option Server)
  | 0 => []
  | n + 1 =>
    let (s2, pick) := roundRobinGo s
    pick :: roundRobinSeq s2 n

/-- Go's `rand.Intn(n)`: `some (r % n)` for a draw `r` of the random source
when `n > 0`, and `none` (a panic) when `n ≤ 0`. -/
def randIntn (r : Nat) (n : Int) : Option Int :=
  if n ≤ 0 then none else some ((r : Int) % n)

/-- `servers.random` from part_001: `s.servers[rand.Intn(len(s.servers))]`. -/
def randomGo (r : Nat) (s : ServersVal) : Option Server :=
  if s.servers.length = 0 then none
  else s.servers.get? (r % s.servers.length)

/-- The subtraction walk of `servers.weightedRandom` from part_001:
subtract each weight from `randomWeight` in list order and return the first
server that makes it negative; `none` when the list is exhausted. -/
def wrWalk : Int → List Server → Option Server
  | _, [] => none
  | rw, srv :: rest =>
    let rw2 := rw - srv.Weight
    if rw2 < 0 then some srv else wrWalk rw2 rest

/-- `servers.weightedRandom` from part_001: draw `rand.Intn(s.weightsSum)`
(`none` = panic when the sum is not positive), walk the list, and on
exhaustion log and fall back to `s.random`. `r1` and `r2` are the two
potential draws of the random source. -/
def weightedRandomGo (r1 r2 : Nat) (s : ServersVal) : Option Server :=
  match randIntn r1 s.weightsSum with
  | none => none
  | some rw =>
    match wrWalk rw s.servers with
    | some srv => some srv
    | none => randomGo r2 s

/-! ## Eureka service registry (src/unnamed/part_000) -/

/-- The `Spec` of the EurekaServiceRegistry object. -/
structure EsrSpec where
  name : String
  endpoints : List String
  syncInterval : String
deriving DecidableEq, Repr

/-- `Spec.Validate` from part_000: the body is literally `return nil`, so no
spec is ever rejected; `none` models the `nil` error. -/
def EsrSpec.Validate (_ : EsrSpec) : Option String :=
  none

/-- `DefaultSpec` from part_000. -/
def DefaultSpec : EsrSpec :=
  { name := ""
    endpoints := ["http://127.0.0.1:8761/eureka"]
    syncInterval := "10s" }

/-- Outcome of the `run` goroutine's duration parse from part_000: either the
parse fails (logged as a BUG and the goroutine returns before any sync) or
the loop runs at the parsed interval. -/
inductive RunOutcome where
  | parseFailed
  | loops (interval : Nat)
deriving DecidableEq, Repr

/-- `run` from part_000, up to its only branch on configuration: parse
`spec.SyncInterval` with `time.ParseDuration` (an external collaborator,
passed in as `parse`); on failure log and return without ever syncing,
otherwise enter the periodic sync loop. -/
def run (parse : String → Option Nat) (spec : EsrSpec) : RunOutcome :=
  match parse spec.syncInterval with
  | none => .parseFailed
  | some d => .loops d

/-- An Eureka port record: number and enabled flag. -/
structure PortInfo where
  port : Int
  enabled : Bool
deriving DecidableEq, Repr

/-- An Eureka application instance; `port` and `securePort` are nullable
pointers in the Go client, hence `Option`. -/
structure InstanceInfo where
  hostName : String
  ipAddr : String
  port : Option PortInfo
  securePort : Option PortInfo
deriving DecidableEq, Repr

/-- An Eureka application: a name and its instances. -/
structure Application where
  name : String
  instances : List InstanceInfo
deriving DecidableEq, Repr

/-- `serviceregistry.Server` as populated by `update` in part_000. -/
structure RegServer where
  serviceName : String
  hostname : String
  hostIP : String
  port : Int
  scheme : String
deriving DecidableEq, Repr

/-- The per-instance body of `update`'s flatten loop in part_000. The base
server dereferences `instance.Port.Port` unconditionally (`none` models the
nil-pointer panic when the plain port is absent); a plain entry is appended
when the plain port is non-nil and enabled, and an `https` entry — a copy of
the base server, so still carrying the plain port number — when the secure
port is non-nil and enabled. -/
def flattenInstance (appName : String) (inst : InstanceInfo) :
    Option (List RegServer) :=
  match inst.port with
  | none => none
  | some p =>
    let base : RegServer :=
      { serviceName := appName
        hostname := inst.hostName
        hostIP := inst.ipAddr
        port := toInt16 p.port
        scheme := "" }
    let plain := if p.enabled then [base] else []
    let secure :=
      match inst.securePort with
      | some sp => if sp.enabled then [{ base with scheme := "https" }] else []
      | none => []
    some (plain ++ secure)

/-- Flatten one application: concatenate the entries of its instances in
order; `none` as soon as one instance panics. -/
def flattenApp (app : Application) : Option (List RegServer) :=
  (app.instances.mapM (flattenInstance app.name)).map List.flatten

/-- Flatten all applications of a fetch, in order. -/
def flattenApps (apps : List Application) : Option (List RegServer) :=
  (apps.mapM flattenApp).map List.flatten

/-- The `serversNum` map built by `update`: each appended entry increments
the count of its service name, so the final count for a name is the number
of emitted entries carrying it (an absent key reads as 0 in Go). -/
def serversNumOf (servers : List RegServer) (name : String) : Nat :=
  (servers.filter fun srv => srv.serviceName == name).length

/-- Result of one `update` call in part_000: the fetch failed (client
retrieval or `GetApplications` error; `update` returns early), the flatten
loop panicked on a nil plain port, or a snapshot was published. -/
inductive UpdateResult where
  | fetchFailed
  | panicked
  | published (servers : List RegServer)
deriving DecidableEq, Repr

/-- `update` from part_000, with the upstream fetch passed in as data: on a
fetch error log and return; otherwise flatten the applications and publish
the snapshot via `ReplaceServers`. -/
def update (fetch : Except Unit (List Application)) : UpdateResult :=
  match fetch with
  | .error _ => .fetchFailed
  | .ok apps =>
    match flattenApps apps with
    | none => .panicked
    | some servers => .published servers

/-- The single snapshot an `update` call hands to
`serviceregistry.Global.ReplaceServers`, when it reaches that call. -/
def publishedSnapshot : UpdateResult → Option (List RegServer)
  | .published servers => some servers
  | _ => none

/-- The registry entry for this object after an `update` call:
`ReplaceServers` overwrites it exactly when a snapshot was published. -/
def nextRegistry (prev : Option (List RegServer)) :
    UpdateResult → Option (List RegServer)
  | .published servers => some servers
  | _ => prev

/-- The `esr.serversNum` status field after an `update` call: replaced by the
fresh map exactly when a snapshot was published. -/
def nextServersNum (st : String → Nat) :
    UpdateResult → String → Nat
  | .published servers => serversNumOf servers
  | _ => st

/-! ## Pipeline common configuration (src/src/pipelines/pipelines.go) -/

/-- `CommonConfig` from pipelines.go; `ParallelismCount` is a `uint16`,
modelled as a natural number. -/
structure CommonConfig where
  Name : String
  Plugins : List String
  ParallelismCount : Nat
deriving DecidableEq, Repr

/-- `CommonConfig.Prepare` from pipelines.go: error on a name that is blank
after `strings.TrimSpace`, then on an empty plugin list, then on parallelism
below 1; otherwise `nil`. -/
def CommonConfig.Prepare (c : CommonConfig) : Option String :=
  if c.Name.trim.length = 0 then some "invalid pipeline name"
  else if c.Plugins.length = 0 then some "pipeline is empty"
  else if c.ParallelismCount < 1 then some "invalid pipeline parallelism"
  else none

/-! ## Concrete inputs used by the claims -/

/-- Server A of the spec's load-balancing scenarios, with weight 1. -/
def srvA : Server := ⟨"A", [], 1⟩

/-- Server B of the spec's load-balancing scenarios, with weight 0. -/
def srvB : Server := ⟨"B", [], 0⟩

/-- Server C of the spec's load-balancing scenarios, with weight 0. -/
def srvC : Server := ⟨"C", [], 0⟩

/-- A fresh round-robin pool over `[A, B, C]` (counter at its zero value). -/
def rrPool3 : ServersVal :=
  ⟨0, 1, [srvA, srvB, srvC], ⟨policyRoundRobin, ""⟩⟩

/-! ## Theorems -/

/-- Helper: `Int.tmod` on two natural-number casts is the natural modulus. -/
theorem tmod_coe (m n : Nat) :
    (Int.ofNat m).tmod (Int.ofNat n) = Int.ofNat (m % n) := rfl

/-- Helper: `toInt64` is the identity below `2 ^ 63`. -/
theorem toInt64_of_lt {n : Nat} (h : n < 2 ^ 63) : toInt64 n = (n : Int) := by
  unfold toInt64
  have h1 : (n + 2 ^ 63) % 2 ^ 64 = n + 2 ^ 63 := Nat.mod_eq_of_lt (by omega)
  rw [h1]
  push_cast
  ring

/-- General half of the amended C1: as long as the 64-bit counter has not
reached `2 ^ 63`, a round-robin selection bumps the counter by one and
indexes the server list at the *post-increment* counter modulo the length. -/
theorem roundRobinGo_spec (s : ServersVal) (hlen : 0 < s.servers.length)
    (hc : s.count + 1 < 2 ^ 63) :
    (roundRobinGo s).1.count = s.count + 1 ∧
    (roundRobinGo s).2 = s.servers.get? ((s.count + 1) % s.servers.length) := by
  have h64 : s.count + 1 < 2 ^ 64 := by omega
  have hmod : (s.count + 1) % 2 ^ 64 = s.count + 1 := Nat.mod_eq_of_lt h64
  unfold roundRobinGo
  refine ⟨by simpa using hmod, ?_⟩
  simp only [hmod]
  rw [if_neg (by omega)]
  rw [toInt64_of_lt (by omega)]
  have hcast : ((s.count + 1 : Nat) : Int) = Int.ofNat (s.count + 1) := rfl
  have hlencast : ((s.servers.length : Nat) : Int) = Int.ofNat s.servers.length := rfl
  rw [hcast, hlencast, tmod_coe]
  rw [if_pos (by exact Int.ofNat_nonneg _)]
  rfl

/-- C1 counterexample: from a fresh pool over `[A, B, C]` the nine selected
servers are NOT `A, B, C, A, B, C, A, B, C` (the counter is incremented
before indexing, so the first pick is index 1). -/
theorem roundRobin_nine_picks_cex :
    roundRobinSeq rrPool3 9 ≠
      [some srvA, some srvB, some srvC, some srvA, some srvB, some srvC,
        some srvA, some srvB, some srvC] := by decide

/-- C1 (amended): each round-robin selection increments the 64-bit counter
and returns the server at index (post-increment counter) mod len(servers);
from a fresh pool over `[A, B, C]`, nine sequential selections return
`B, C, A, B, C, A, B, C, A`. -/
theorem roundRobin_amended :
    (∀ s : ServersVal, 0 < s.servers.length → s.count + 1 < 2 ^ 63 →
        (roundRobinGo s).1.count = s.count + 1 ∧
        (roundRobinGo s).2 = s.servers.get? ((s.count + 1) % s.servers.length)) ∧
    roundRobinSeq rrPool3 9 =
      [some srvB, some srvC, some srvA, some srvB, some srvC, some srvA,
        some srvB, some srvC, some srvA] := by
  exact ⟨fun s h1 h2 => roundRobinGo_spec s h1 h2, by decide⟩

/-- Witness for `roundRobin_amended` at the concrete fresh pool. -/
theorem roundRobin_amended_witness :
    (roundRobinGo rrPool3).1.count = 1 ∧
    (roundRobinGo rrPool3).2 = rrPool3.servers.get? (1 % 3) :=
  roundRobin_amended.1 rrPool3 (by decide) (by decide)

/-- C2: `Spec.Validate` accepts every spec (its body is `return nil`), so a
malformed `syncInterval` is not rejected at construction; instead the `run`
goroutine discovers the parse failure at runtime and terminates the sync
loop. This contradicts the claim that construction fails. -/
theorem esr_malformed_interval_passes_validate
    (parse : String → Option Nat) (spec : EsrSpec)
    (h : parse spec.syncInterval = none) :
    EsrSpec.Validate spec = none ∧ run parse spec = .parseFailed := by
  refine ⟨rfl, ?_⟩
  unfold run
  rw [h]

/-- Witness for `esr_malformed_interval_passes_validate` on a spec whose
interval no duration parser accepts. -/
theorem esr_malformed_interval_passes_validate_witness :
    EsrSpec.Validate ⟨"esr", [], "not-a-duration"⟩ = none ∧
    run (fun _ => none) ⟨"esr", [], "not-a-duration"⟩ = .parseFailed :=
  esr_malformed_interval_passes_validate (fun _ => none)
    ⟨"esr", [], "not-a-duration"⟩ rfl

/-- A non-empty pool whose weights sum to zero. -/
def zwPool : ServersVal := ⟨0, 0, [⟨"A", [], 0⟩], ⟨policyWeightedRandom, ""⟩⟩

/-- C3: over a non-empty pool whose `weightsSum` is 0 (and consistent with
its servers' weights), `weightedRandom` does not fall back to `random`: the
initial `rand.Intn(0)` call panics, so no server is returned at all. -/
theorem weightedRandom_zero_sum_panics :
    zwPool.servers ≠ [] ∧
    zwPool.weightsSum = listWeightSum zwPool.servers ∧
    zwPool.weightsSum = 0 ∧
    weightedRandomGo 5 7 zwPool = none := by decide

/-- C5: when the tick's upstream fetch fails (client retrieval or
`GetApplications` error), `update` returns early: no snapshot is handed to
`ReplaceServers`, the registry keeps the previously published snapshot, and
the `serversNum` status map is unchanged. -/
theorem update_fetch_error_absorbed (prev : Option (List RegServer))
    (st : String → Nat) :
    update (.error ()) = .fetchFailed ∧
    publishedSnapshot (update (.error ())) = none ∧
    nextRegistry prev (update (.error ())) = prev ∧
    nextServersNum st (update (.error ())) = st := by
  refine ⟨rfl, rfl, rfl, rfl⟩

/-- The C10 instance: plain port absent, secure port present and enabled. -/
def nilPortInst : InstanceInfo := ⟨"h", "10.0.0.1", none, some ⟨443, true⟩⟩

/-- C10: the flatten loop dereferences `instance.Port` before its nil check,
so an instance with a nil plain port and an enabled secure port makes
`update` fail with a nil dereference instead of emitting the secure entry:
the `none` branch of the modelled field access is reached. -/
theorem update_nil_plain_port_panics :
    nilPortInst.port = none ∧
    (nilPortInst.securePort.map PortInfo.enabled).getD false = true ∧
    flattenInstance "svc" nilPortInst = none ∧
    update (.ok [⟨"svc", [nilPortInst]⟩]) = .panicked := by decide

/-- C7: `headerHash` with an empty `headerHashKey` is rejected by
`LoadBalance.Validate`; a policy outside the five known values fails the
`oneof` tag and hence full config validation; each of the other four known
policies passes full validation whatever the `headerHashKey`. -/
theorem lb_validate_characterization (lb : LoadBalance) :
    (lb.Policy = policyHeaderHash → lb.HeaderHashKey = "" →
      (LoadBalance.Validate lb).isSome = true) ∧
    (policyOneOf lb.Policy = false → lbConfigValid lb = false) ∧
    (lb.Policy = policyRoundRobin ∨ lb.Policy = policyRandom ∨
        lb.Policy = policyWeightedRandom ∨ lb.Policy = policyIPHash →
      lbConfigValid lb = true) := by
  obtain ⟨p, k⟩ := lb
  refine ⟨?_, ?_, ?_⟩
  · intro hp hk
    subst hp; subst hk
    decide
  · intro h
    simp [lbConfigValid, h]
  · intro h
    rcases h with h | h | h | h <;> subst h <;>
      simp [lbConfigValid, policyOneOf, LoadBalance.Validate,
        policyRoundRobin, policyRandom, policyWeightedRandom, policyIPHash,
        policyHeaderHash]

/-- Witness for `lb_validate_characterization` at concrete configs. -/
theorem lb_validate_characterization_witness :
    (LoadBalance.Validate ⟨"headerHash", ""⟩).isSome = true ∧
    lbConfigValid ⟨"bogusPolicy", ""⟩ = false ∧
    lbConfigValid ⟨"random", ""⟩ = true :=
  ⟨(lb_validate_characterization ⟨"headerHash", ""⟩).1 rfl rfl,
    (lb_validate_characterization ⟨"bogusPolicy", ""⟩).2.1 (by decide),
    (lb_validate_characterization ⟨"random", ""⟩).2.2 (by decide)⟩

/-- Helper: a string has length zero exactly when it is the empty string. -/
theorem string_length_zero_iff (s : String) : s.length = 0 ↔ s = "" := by
  constructor
  · intro h
    cases s with
    | mk data =>
      have : data = [] := List.length_eq_zero.mp h
      simp [this]
  · intro h
    subst h
    rfl

/-- C9: `CommonConfig.Prepare` errors exactly when the name is blank after
trimming, the plugin list is empty, or parallelism is zero; every other
config gets `nil`. -/
theorem commonConfig_prepare_characterization (c : CommonConfig) :
    (CommonConfig.Prepare c).isSome = true ↔
      (c.Name.trim = "" ∨ c.Plugins = [] ∨ c.ParallelismCount = 0) := by
  unfold CommonConfig.Prepare
  split_ifs with h1 h2 h3 <;>
    simp_all [string_length_zero_iff, List.length_eq_zero]

/-- Spec-side description of the tag filter: with a non-empty `ServersTags`
only servers whose tag set intersects the filter participate, otherwise all
spec servers do. -/
def specParticipating (spec : HTTPSpec) : List Server :=
  if spec.serversTags = [] then
    spec.servers
  else
    spec.servers.filter fun srv =>
      decide (∃ t, t ∈ spec.serversTags ∧ t ∈ srv.Tags)

/-- Helper: the Go first-match loop over the tag filter coincides with the
existence of a common tag. -/
theorem tagLoop_eq_intersects (tags : List String) (srv : Server) :
    (tags.any fun tag => strInSlice tag srv.Tags) =
      decide (∃ t, t ∈ tags ∧ t ∈ srv.Tags) := by
  unfold strInSlice
  rw [Bool.eq_iff_iff, List.any_eq_true]
  simp [List.elem_iff]

/-- C8: the pool built by `newServers` holds exactly the spec servers whose
tag set intersects a non-empty `ServersTags` (all spec servers when it is
empty), and its precomputed `weightsSum` is the accumulated weight of the
participating servers. -/
theorem newServers_filter_and_weight_sum (spec : HTTPSpec) :
    (newServers spec).servers = specParticipating spec ∧
    (newServers spec).weightsSum = listWeightSum (newServers spec).servers := by
  refine ⟨?_, rfl⟩
  unfold newServers specParticipating
  by_cases h : spec.serversTags = []
  · simp [h]
  · rw [if_neg h, if_neg (by simpa [List.length_eq_zero] using h)]
    exact List.filter_congr fun srv _ => tagLoop_eq_intersects _ srv

/-- Spec-side description of weighted random: the first server in list order
whose cumulative weight (starting from `acc`) exceeds the draw `r`. -/
def firstCumExceeding (r : Int) : Int → List Server → Option Server
  | _, [] => none
  | acc, srv :: rest =>
    if r < acc + srv.Weight then some srv
    else firstCumExceeding r (acc + srv.Weight) rest

/-- Helper: accumulating weights from `a` shifts the accumulation from 0. -/
theorem foldl_weight_shift (l : List Server) :
    ∀ a : Int, l.foldl (fun acc srv => acc + srv.Weight) a =
      a + l.foldl (fun acc srv => acc + srv.Weight) 0 := by
  induction l with
  | nil => intro a; simp
  | cons srv rest ih =>
    intro a
    simp only [List.foldl_cons]
    rw [ih (a + srv.Weight), ih (0 + srv.Weight)]
    ring

/-- Helper: `listWeightSum` over a cons. -/
theorem listWeightSum_cons (srv : Server) (l : List Server) :
    listWeightSum (srv :: l) = srv.Weight + listWeightSum l := by
  unfold listWeightSum
  simp only [List.foldl_cons]
  rw [foldl_weight_shift]
  ring

/-- Helper: the subtraction walk of the Go code computes the first server
whose cumulative weight exceeds the draw. -/
theorem wrWalk_eq_firstCumExceeding (l : List Server) :
    ∀ r acc : Int, wrWalk (r - acc) l = firstCumExceeding r acc l := by
  induction l with
  | nil => intro r acc; rfl
  | cons srv rest ih =>
    intro r acc
    unfold wrWalk firstCumExceeding
    by_cases h : r < acc + srv.Weight
    · rw [if_pos (by omega), if_pos h]
    · rw [if_neg (by omega), if_neg h]
      have : r - acc - srv.Weight = r - (acc + srv.Weight) := by ring
      rw [this, ih r (acc + srv.Weight)]

/-- Helper: the walk finds a server whenever the draw is below the total
weight. -/
theorem wrWalk_isSome (l : List Server) :
    ∀ r : Int, 0 ≤ r → r < listWeightSum l → (wrWalk r l).isSome := by
  induction l with
  | nil =>
    intro r h0 h1
    unfold listWeightSum at h1
    simp at h1
    omega
  | cons srv rest ih =>
    intro r h0 h1
    rw [listWeightSum_cons] at h1
    unfold wrWalk
    by_cases h : r - srv.Weight < 0
    · rw [if_pos h]; rfl
    · rw [if_neg h]
      exact ih (r - srv.Weight) (by omega) (by omega)

/-- The weighted-random pool over `[(A, 1), (B, 0), (C, 0)]`, as built with
`weightsSum = 1`. -/
def wrPoolABC : ServersVal :=
  ⟨0, 1, [srvA, srvB, srvC], ⟨policyWeightedRandom, ""⟩⟩

/-- C6: over a non-empty pool whose precomputed `weightsSum` is positive,
`weightedRandom` reduces the draw modulo the sum to `r ∈ [0, weightsSum)`
and returns (without the fallback) the first server in list order whose
cumulative weight exceeds `r`; in particular over `[(A, 1), (B, 0), (C, 0)]`
every selection returns A. -/
theorem weightedRandom_first_exceeding :
    (∀ (s : ServersVal) (r1 r2 : Nat),
        s.weightsSum = listWeightSum s.servers → 0 < s.weightsSum →
        weightedRandomGo r1 r2 s =
            firstCumExceeding ((r1 : Int) % s.weightsSum) 0 s.servers ∧
          (weightedRandomGo r1 r2 s).isSome) ∧
    ∀ r1 r2 : Nat, weightedRandomGo r1 r2 wrPoolABC = some srvA := by
  constructor
  · intro s r1 r2 hsum hpos
    have hne : s.weightsSum ≠ 0 := by omega
    have h0 : (0 : Int) ≤ (r1 : Int) % s.weightsSum := Int.emod_nonneg _ hne
    have h1 : (r1 : Int) % s.weightsSum < s.weightsSum := Int.emod_lt_of_pos _ hpos
    have hw : (wrWalk ((r1 : Int) % s.weightsSum) s.servers).isSome :=
      wrWalk_isSome s.servers _ h0 (by rw [← hsum]; exact h1)
    obtain ⟨srv, hsrv⟩ := Option.isSome_iff_exists.mp hw
    have heq : weightedRandomGo r1 r2 s = some srv := by
      unfold weightedRandomGo randIntn
      rw [if_neg (by omega)]
      show (match wrWalk ((r1 : Int) % s.weightsSum) s.servers with
        | some srv => some srv
        | none => randomGo r2 s) = some srv
      rw [hsrv]
    have hfc : firstCumExceeding ((r1 : Int) % s.weightsSum) 0 s.servers =
        some srv := by
      rw [← wrWalk_eq_firstCumExceeding, sub_zero, hsrv]
    rw [heq, hfc]
    exact ⟨rfl, rfl⟩
  · intro r1 r2
    unfold weightedRandomGo
    have h1 : randIntn r1 wrPoolABC.weightsSum = some 0 := by
      show randIntn r1 1 = some 0
      unfold randIntn
      rw [if_neg (by decide), Int.emod_one]
    rw [h1]
    show (match wrWalk 0 wrPoolABC.servers with
      | some srv => some srv
      | none => randomGo r2 wrPoolABC) = some srvA
    have h2 : wrWalk 0 wrPoolABC.servers = some srvA := by decide
    rw [h2]

/-- Witness for `weightedRandom_first_exceeding` at a concrete pool and
draws. -/
theorem weightedRandom_first_exceeding_witness :
    (weightedRandomGo 5 7 wrPoolABC =
        firstCumExceeding ((5 : Int) % wrPoolABC.weightsSum) 0
          wrPoolABC.servers ∧
      (weightedRandomGo 5 7 wrPoolABC).isSome) ∧
    weightedRandomGo 5 7 wrPoolABC = some srvA :=
  ⟨weightedRandom_first_exceeding.1 wrPoolABC 5 7 (by decide) (by decide),
    weightedRandom_first_exceeding.2 5 7⟩

/-- Spec-side (amended) description of the entries one instance contributes:
with the plain port present, a plain entry iff the plain port is enabled and
an `https` entry iff the secure port is enabled — both carrying the *plain*
port's number, since the code copies the base server. -/
def expectedEntries (appName : String) (inst : InstanceInfo) : List RegServer :=
  match inst.port with
  | none => []
  | some p =>
    (if p.enabled then
        [⟨appName, inst.hostName, inst.ipAddr, toInt16 p.port, ""⟩]
      else []) ++
    (if (inst.securePort.map PortInfo.enabled).getD false then
        [⟨appName, inst.hostName, inst.ipAddr, toInt16 p.port, "https"⟩]
      else [])

/-- Spec-side description of a whole tick's snapshot: the instances'
entries, flattened in application order. -/
def expectedFlatten (apps : List Application) : List RegServer :=
  (apps.map fun app =>
    (app.instances.map (expectedEntries app.name)).flatten).flatten

/-- Helper: an `Option`-valued `mapM` that succeeds pointwise is a `map`. -/
theorem mapM_option_eq_map {α β : Type} (f : α → Option β) (g : α → β)
    (l : List α) (h : ∀ x ∈ l, f x = some (g x)) :
    l.mapM f = some (l.map g) := by
  induction l with
  | nil => rfl
  | cons x xs ih =>
    rw [List.mapM_cons, h x (by simp), ih fun y hy => h y (by simp [hy])]
    rfl

/-- Helper: with the plain port present, the flatten body produces exactly
the expected entries. -/
theorem flattenInstance_eq_expected (appName : String) (inst : InstanceInfo)
    (h : inst.port ≠ none) :
    flattenInstance appName inst = some (expectedEntries appName inst) := by
  cases hp : inst.port with
  | none => exact absurd hp h
  | some p =>
    cases hs : inst.securePort with
    | none => simp [flattenInstance, expectedEntries, hp, hs]
    | some sp => simp [flattenInstance, expectedEntries, hp, hs]

/-- Helper: flattening an application whose instances all carry a plain port
succeeds with the expected entries. -/
theorem flattenApp_eq_expected (app : Application)
    (h : ∀ inst ∈ app.instances, inst.port ≠ none) :
    flattenApp app =
      some ((app.instances.map (expectedEntries app.name)).flatten) := by
  unfold flattenApp
  rw [mapM_option_eq_map _ (expectedEntries app.name) _
    fun inst hi => flattenInstance_eq_expected app.name inst (h inst hi)]
  rfl

/-- Helper: flattening a fetch whose instances all carry a plain port
succeeds with the expected snapshot. -/
theorem flattenApps_eq_expected (apps : List Application)
    (h : ∀ app ∈ apps, ∀ inst ∈ app.instances, inst.port ≠ none) :
    flattenApps apps = some (expectedFlatten apps) := by
  unfold flattenApps expectedFlatten
  rw [mapM_option_eq_map _
    (fun app => (app.instances.map (expectedEntries app.name)).flatten) _
    fun app ha => flattenApp_eq_expected app (h app ha)]
  rfl

/-- The C4 counterexample fetch: one instance whose plain port 80 is
disabled and whose secure port 443 is enabled. -/
def cx4Apps : List Application :=
  [⟨"svc", [⟨"h", "10.0.0.1", some ⟨80, false⟩, some ⟨443, true⟩⟩]⟩]

/-- C4 counterexample: for the secure-enabled instance with plain port 80
and secure port 443, the single published entry has scheme `https` but
carries port 80 — no emitted entry carries the secure port's number 443. -/
theorem update_secure_port_number_cex :
    update (.ok cx4Apps) =
      .published [⟨"svc", "h", "10.0.0.1", 80, "https"⟩] ∧
    (∀ srv ∈ [(⟨"svc", "h", "10.0.0.1", 80, "https"⟩ : RegServer)],
      srv.port ≠ 443) := by decide

/-- C4 (amended): on a tick whose instances all carry a (non-nil) plain
port, the snapshot handed to the single `ReplaceServers` call has one entry
per enabled port, plain and secure independently — the `https` entries
carrying the *plain* port's number — and the new `serversNum` maps each
service name to its number of emitted entries. -/
theorem update_flatten_amended (apps : List Application)
    (h : ∀ app ∈ apps, ∀ inst ∈ app.instances, inst.port ≠ none) :
    publishedSnapshot (update (.ok apps)) = some (expectedFlatten apps) ∧
    ∀ (st : String → Nat) (nm : String),
      nextServersNum st (update (.ok apps)) nm =
        serversNumOf (expectedFlatten apps) nm := by
  have hupd : update (.ok apps) = .published (expectedFlatten apps) := by
    show (match flattenApps apps with
      | none => UpdateResult.panicked
      | some servers => UpdateResult.published servers) =
      UpdateResult.published (expectedFlatten apps)
    rw [flattenApps_eq_expected apps h]
  rw [hupd]
  exact ⟨rfl, fun st nm => rfl⟩

/-- Witness for `update_flatten_amended` on a two-port instance. -/
theorem update_flatten_amended_witness :
    publishedSnapshot
        (update (.ok [⟨"svc", [⟨"h", "10.0.0.1", some ⟨80, true⟩,
          some ⟨443, true⟩⟩]⟩])) =
      some (expectedFlatten [⟨"svc", [⟨"h", "10.0.0.1", some ⟨80, true⟩,
        some ⟨443, true⟩⟩]⟩]) :=
  (update_flatten_amended
    [⟨"svc", [⟨"h", "10.0.0.1", some ⟨80, true⟩, some ⟨443, true⟩⟩]⟩]
    (by decide)).1

end Easegress
